import Mathlib

/-!
Shallow embedding of the "Loot Goblin" Roblox game's server services
(GameStateService, CombatService, StatsService, LootService) from the
repository's TypeScript sources.

Conventions of the embedding:
* Lua numbers are modelled as `ℚ` (the game only ever adds, subtracts,
  multiplies, divides, clamps and compares them; NaN/inf guards in the
  source are unrepresentable in `ℚ` and are noted where dropped).
* Engine `Player` objects are modelled as `Nat` ids; the JS `Map`s keyed
  by `Player` become association lists `List (Nat × _)`.
* Host-engine effects (RemoteEvent broadcasts, teleports, Humanoid,
  part creation/destruction, `task.delay`/`task.spawn` threads) are not
  state of the model; scheduled callbacks appear as explicit events.
* Entity-type strings ("Player", "Boss", "Goblin", ...) are modelled by
  the inductive `EntityTypeName`, with `Other` standing for any string
  that is not a key of `LOOT_TABLES` and not "Player"/"Boss".
-/

namespace LootGoblin

/-- `GamePhase` from src/shared/types/gameState.ts. -/
inductive GamePhase
  | Lobby
  | Countdown
  | Dungeon
  | Boss
  | PvPCountdown
  | PvP
  | Victory
deriving DecidableEq, Repr

/-- The nominal phase cycle from the spec:
lobby→countdown→dungeon→boss→pvp-countdown→pvp→victory→lobby. -/
def cycleNext : GamePhase → GamePhase
  | .Lobby => .Countdown
  | .Countdown => .Dungeon
  | .Dungeon => .Boss
  | .Boss => .PvPCountdown
  | .PvPCountdown => .PvP
  | .PvP => .Victory
  | .Victory => .Lobby

/-- `GAME_CONFIG.MIN_PLAYERS_TO_START` from src/shared/types/gameState.ts. -/
def MIN_PLAYERS_TO_START : Nat := 1

/-- The four player stats from src/shared/types/stats.ts (`PlayerStats` keys). -/
inductive StatName
  | damage
  | attackSpeed
  | moveSpeed
  | maxHealth
deriving DecidableEq, Repr

/-- `PlayerStats` record from src/shared/types/stats.ts. -/
structure PlayerStats where
  damage : ℚ
  attackSpeed : ℚ
  moveSpeed : ℚ
  maxHealth : ℚ
deriving DecidableEq, Repr

/-- `BASE_STATS` from src/shared/types/stats.ts. -/
def BASE_STATS : PlayerStats :=
  { damage := 10, attackSpeed := 1, moveSpeed := 16, maxHealth := 100 }

/-- Read one field of `PlayerStats` (the TS code indexes `stats[stat]`). -/
def getStat (st : PlayerStats) : StatName → ℚ
  | .damage => st.damage
  | .attackSpeed => st.attackSpeed
  | .moveSpeed => st.moveSpeed
  | .maxHealth => st.maxHealth

/-- Write one field of `PlayerStats` (the TS code assigns `stats[stat] = v`). -/
def setStat (st : PlayerStats) : StatName → ℚ → PlayerStats
  | .damage, v => { st with damage := v }
  | .attackSpeed, v => { st with attackSpeed := v }
  | .moveSpeed, v => { st with moveSpeed := v }
  | .maxHealth, v => { st with maxHealth := v }

/-- `MAX_STAT_VALUES` from StatsService.modifyStat
(src/src/server/services/StatsService.ts). -/
def MAX_STAT_VALUES : StatName → ℚ
  | .damage => 10000
  | .attackSpeed => 10
  | .moveSpeed => 100
  | .maxHealth => 100000

/-- StatsService.modifyStat on one player's stats record
(src/src/server/services/StatsService.ts lines 98-140).
The source rejects non-number/NaN/inf/negative amounts (the first three are
unrepresentable in `ℚ`), then caps `stats[stat] + amount` at
`MAX_STAT_VALUES[stat]`.  The maxHealth/moveSpeed side effects
(onMaxHealthChanged, healPlayer, WalkSpeed) are modelled separately. -/
def modifyStat (st : PlayerStats) (stat : StatName) (amount : ℚ) : PlayerStats :=
  if amount < 0 then st
  else setStat st stat (min (getStat st stat + amount) (MAX_STAT_VALUES stat))

/-- StatsService.resetPlayerStats on one player's stats record
(src/src/server/services/StatsService.ts lines 160-174): all four fields
are assigned back to `BASE_STATS`. -/
def resetPlayerStats (st : PlayerStats) : PlayerStats :=
  { st with
    damage := BASE_STATS.damage
    attackSpeed := BASE_STATS.attackSpeed
    moveSpeed := BASE_STATS.moveSpeed
    maxHealth := BASE_STATS.maxHealth }

/-- `PLAYER` combat defaults from src/shared/config/combat.ts. -/
structure PlayerConfig where
  health : ℚ
  maxHealth : ℚ
  damage : ℚ
  attackSpeed : ℚ
deriving DecidableEq, Repr

def PLAYER : PlayerConfig :=
  { health := 100, maxHealth := 100, damage := 10, attackSpeed := 1 }

/-- `PLAYER_ATTACK` from src/shared/config/combat.ts. -/
structure PlayerAttackConfig where
  cooldown : ℚ
  range : ℚ
  arcDegrees : ℚ
deriving DecidableEq, Repr

def PLAYER_ATTACK : PlayerAttackConfig :=
  { cooldown := 1/2, range := 5, arcDegrees := 90 }

/-- `PlayerCombatState` from src/src/server/services/CombatService.ts.
Health is owned by CombatService; maxHealth lives in StatsService. -/
structure PlayerCombatState where
  health : ℚ
  lastAttackTime : ℚ
  isAlive : Bool
  invulnerable : Bool
deriving DecidableEq, Repr

/-- CombatService.initializePlayer's fresh state
(src/src/server/services/CombatService.ts lines 74-92). -/
def initialCombatState : PlayerCombatState :=
  { health := PLAYER.health, lastAttackTime := 0, isAlive := true, invulnerable := false }

/-- CombatService.healPlayer (lines 139-151): when alive, add `amount`
capped at the StatsService max health `maxHealth`; otherwise unchanged. -/
def healPlayer (maxHealth : ℚ) (s : PlayerCombatState) (amount : ℚ) : PlayerCombatState :=
  if s.isAlive then { s with health := min (s.health + amount) maxHealth } else s

/-- CombatService.setPlayerHealth (lines 157-169):
`math.clamp(health, 0, maxHealth)`. -/
def setPlayerHealth (maxHealth : ℚ) (s : PlayerCombatState) (health : ℚ) : PlayerCombatState :=
  { s with health := min (max health 0) maxHealth }

/-- CombatService.onMaxHealthChanged (lines 175-186): clamp current health
down to the new maximum when it exceeds it. -/
def onMaxHealthChanged (s : PlayerCombatState) (newMaxHealth : ℚ) : PlayerCombatState :=
  if s.health > newMaxHealth then { s with health := newMaxHealth } else s

/-- CombatService.dealDamageToPlayer on one player's combat state
(src/src/server/services/CombatService.ts lines 196-238).
Returns the new state and whether the death path ran (EntityDied broadcast
plus the onEntityDied signal).  Dead or invulnerable targets return
unchanged.  Otherwise `health = math.max(0, health - amount)` and the death
path runs exactly when the new health is `<= 0`. -/
def dealDamageToPlayer (s : PlayerCombatState) (amount : ℚ) :
    PlayerCombatState × Bool :=
  if !s.isAlive || s.invulnerable then (s, false)
  else if max 0 (s.health - amount) ≤ 0 then
    ({ s with health := max 0 (s.health - amount), isAlive := false }, true)
  else ({ s with health := max 0 (s.health - amount) }, false)

/-- CombatService.handleAttackRequest, state-relevant part
(src/src/server/services/CombatService.ts lines 249-302).
`dirValid` is the direction-magnitude check (nonzero, non-NaN, finite);
`now` is `os.clock()`; `attackSpeed` is `StatsService.getAttackSpeed`.
Returns the new combat state and whether the request passed the cooldown
gate (the source updates `lastAttackTime` exactly then; the later
HumanoidRootPart lookup only gates the swing itself, not the timestamp). -/
def handleAttackRequest (s : PlayerCombatState) (dirValid : Bool)
    (now attackSpeed : ℚ) : PlayerCombatState × Bool :=
  if !s.isAlive then (s, false)
  else if !dirValid then (s, false)
  else if now - s.lastAttackTime < PLAYER_ATTACK.cooldown / attackSpeed then (s, false)
  else ({ s with lastAttackTime := now }, true)

/-- CombatService.resetPlayer on one player's combat state
(src/src/server/services/CombatService.ts lines 417-442): full health at
the StatsService max, alive, vulnerable, cooldown cleared. -/
def resetPlayerCombat (maxHealth : ℚ) (_s : PlayerCombatState) : PlayerCombatState :=
  { health := maxHealth, lastAttackTime := 0, isAlive := true, invulnerable := false }

/-! ## LootService (src/unnamed/part_010) -/

/-- `LootRarity` from src/shared/types/stats.ts. -/
inductive LootRarity
  | Common
  | Rare
  | Epic
deriving DecidableEq, Repr

/-- `RARITY_MULTIPLIERS` from src/shared/config/loot.ts. -/
def RARITY_MULTIPLIERS : LootRarity → ℚ
  | .Common => 1
  | .Rare => 3/2
  | .Epic => 2

/-- `LootTableEntry` from src/shared/config/loot.ts.
`lo`/`hi` are the source's `min`/`max` roll bounds. -/
structure LootTableEntry where
  stat : StatName
  weight : ℚ
  lo : ℚ
  hi : ℚ
deriving DecidableEq, Repr

/-- `rarityWeights` record from src/shared/config/loot.ts. -/
structure RarityWeights where
  Common : ℚ
  Rare : ℚ
  Epic : ℚ
deriving DecidableEq, Repr

/-- `EnemyLootTable` from src/shared/config/loot.ts. -/
structure EnemyLootTable where
  dropChance : ℚ
  rarityWeights : RarityWeights
  drops : List LootTableEntry
deriving DecidableEq, Repr

/-- Entity-type names that flow through `onEntityDied` and index
`LOOT_TABLES`.  `Other` stands for any string that is none of the listed
keys (for such strings `LOOT_TABLES[t]` is `nil` in the source). -/
inductive EntityTypeName
  | Player
  | Goblin
  | Skeleton
  | Ogre
  | Boss
  | Other
deriving DecidableEq, Repr

/-- `LOOT_TABLES` from src/shared/config/loot.ts.  A `none` result is the
source's `nil` lookup for a key outside the table. -/
def LOOT_TABLES : EntityTypeName → Option EnemyLootTable
  | .Goblin => some
      { dropChance := 2/5
        rarityWeights := { Common := 70, Rare := 25, Epic := 5 }
        drops :=
          [ { stat := .damage, weight := 3, lo := 1, hi := 2 },
            { stat := .attackSpeed, weight := 2, lo := 1/20, hi := 1/10 },
            { stat := .moveSpeed, weight := 1, lo := 1, hi := 2 } ] }
  | .Skeleton => some
      { dropChance := 1/2
        rarityWeights := { Common := 60, Rare := 30, Epic := 10 }
        drops :=
          [ { stat := .damage, weight := 3, lo := 2, hi := 3 },
            { stat := .attackSpeed, weight := 2, lo := 1/20, hi := 3/20 },
            { stat := .maxHealth, weight := 2, lo := 5, hi := 10 } ] }
  | .Ogre => some
      { dropChance := 7/10
        rarityWeights := { Common := 40, Rare := 40, Epic := 20 }
        drops :=
          [ { stat := .damage, weight := 2, lo := 3, hi := 5 },
            { stat := .maxHealth, weight := 3, lo := 10, hi := 20 },
            { stat := .moveSpeed, weight := 1, lo := 1, hi := 2 } ] }
  | .Boss => some
      { dropChance := 1
        rarityWeights := { Common := 0, Rare := 50, Epic := 50 }
        drops :=
          [ { stat := .damage, weight := 1, lo := 5, hi := 10 },
            { stat := .attackSpeed, weight := 1, lo := 1/10, hi := 1/5 },
            { stat := .maxHealth, weight := 1, lo := 15, hi := 30 },
            { stat := .moveSpeed, weight := 1, lo := 2, hi := 4 } ] }
  | _ => none

/-- Loop body of LootService.pickWeightedStat (src/unnamed/part_010
lines 497-510): subtract each weight from the roll and return the first
entry that brings it to `<= 0`. -/
def pickWeightedStatGo : List LootTableEntry → ℚ → Option StatName
  | [], _ => none
  | d :: rest, roll =>
      if roll - d.weight ≤ 0 then some d.stat else pickWeightedStatGo rest (roll - d.weight)

/-- LootService.pickWeightedStat (src/unnamed/part_010 lines 497-510) with
the roll `math.random() * totalWeight` passed in as `roll`.  The source's
fallback `drops[0].stat` becomes the `head?` alternative; `none` is the
Lua runtime error on an empty table. -/
def pickWeightedStat (drops : List LootTableEntry) (roll : ℚ) : Option StatName :=
  match pickWeightedStatGo drops roll with
  | some s => some s
  | none => drops.head?.map LootTableEntry.stat

/-- LootService.pickWeightedRarity (src/unnamed/part_010 lines 515-523)
with the unit random draw passed in as `r` (`roll = r * totalWeight`). -/
def pickWeightedRarity (w : RarityWeights) (r : ℚ) : LootRarity :=
  let roll := r * (w.Common + w.Rare + w.Epic)
  if roll ≤ w.Common then .Common
  else if roll - w.Common ≤ w.Rare then .Rare
  else .Epic

/-- One spawned drop: the `spawnLoot` arguments that matter to stats
(position and the physical part are host state). -/
structure SpawnedLoot where
  stat : StatName
  amount : ℚ
  rarity : LootRarity
deriving DecidableEq, Repr

/-- The body of LootService.rollAndSpawnLoot once the loot table is in
hand (src/unnamed/part_010 lines 312-326): gate on `dropChance`, pick the
stat by weighted random, look its entry back up with `find`, roll the
amount in `[lo, hi]`, scale by rarity. -/
def rollFromTable (lootTable : EnemyLootTable) (rDrop rStat rRarity rAmt : ℚ) :
    List SpawnedLoot :=
  if rDrop > lootTable.dropChance then []
  else
    match pickWeightedStat lootTable.drops
        (rStat * (lootTable.drops.map LootTableEntry.weight).sum) with
    | none => []
    | some stat =>
        match lootTable.drops.find? (fun d => d.stat = stat) with
        | none => []
        | some entry =>
            [{ stat := stat
               amount := (rAmt * (entry.hi - entry.lo) + entry.lo)
                 * RARITY_MULTIPLIERS (pickWeightedRarity lootTable.rarityWeights rRarity)
               rarity := pickWeightedRarity lootTable.rarityWeights rRarity }]

/-- LootService.rollAndSpawnLoot (src/unnamed/part_010 lines 305-327).
The four unit-interval random draws of the source (`math.random()` for the
drop gate, the stat pick, the rarity pick and the amount) are passed in as
`rDrop rStat rRarity rAmt`.  Returns the list of drops spawned (empty or a
singleton). -/
def rollAndSpawnLoot (enemyType : EntityTypeName) (rDrop rStat rRarity rAmt : ℚ) :
    List SpawnedLoot :=
  match LOOT_TABLES enemyType with
  | none => []
  | some lootTable => rollFromTable lootTable rDrop rStat rRarity rAmt

/-- `ActiveLoot` record from src/unnamed/part_010 (the `part` Instance and
despawn thread handle are host state). -/
structure ActiveLoot where
  stat : StatName
  amount : ℚ
  rarity : LootRarity
deriving DecidableEq, Repr

/-- The `activeLoot` map: loot GUID → record.  GUIDs are abstracted to
`Nat`. -/
abbrev LootMap := List (Nat × ActiveLoot)

def lootLookup : LootMap → Nat → Option ActiveLoot
  | [], _ => none
  | (j, l) :: rest, i => if j = i then some l else lootLookup rest i

/-- JS `Map.delete`. -/
def lootErase (m : LootMap) (i : Nat) : LootMap :=
  m.filter (fun e => e.1 ≠ i)

/-- JS `Map.set` (replacing semantics). -/
def lootInsert (m : LootMap) (i : Nat) (l : ActiveLoot) : LootMap :=
  (i, l) :: lootErase m i

/-- One stat application performed by `collectLoot` via
`StatsService.modifyStat`. -/
structure StatApplication where
  lootId : Nat
  player : Nat
  stat : StatName
  amount : ℚ
deriving DecidableEq, Repr

/-- Events that drive the `activeLoot` map:
* `spawn` — `spawnLoot` registering a fresh GUID (src/unnamed/part_010
  lines 380-438);
* `touch` — a `Touched` signal, carrying the player derived from the hit
  part, or `none` when the part is not a player character (lines 443-456);
* `collect` — a direct `collectLoot` call (lines 461-481);
* `despawn` — the despawn-timer callback `despawnLoot` (lines 486-492). -/
inductive LootOp
  | spawn (id : Nat) (l : ActiveLoot)
  | touch (id : Nat) (byPlayer : Option Nat)
  | collect (id : Nat) (p : Nat)
  | despawn (id : Nat)
deriving DecidableEq, Repr

/-- LootService.collectLoot (src/unnamed/part_010 lines 461-481): absent id
is a no-op; otherwise the id is removed from `activeLoot` first and the
stat is applied once. -/
def collectLoot (m : LootMap) (i : Nat) (p : Nat) : LootMap × List StatApplication :=
  match lootLookup m i with
  | none => (m, [])
  | some l => (lootErase m i, [{ lootId := i, player := p, stat := l.stat, amount := l.amount }])

/-- LootService.handleLootTouch (src/unnamed/part_010 lines 443-456):
absent id or a non-player toucher is a no-op; otherwise collect. -/
def handleLootTouch (m : LootMap) (i : Nat) (byPlayer : Option Nat) :
    LootMap × List StatApplication :=
  match lootLookup m i with
  | none => (m, [])
  | some _ =>
      match byPlayer with
      | none => (m, [])
      | some p => collectLoot m i p

/-- LootService.despawnLoot (src/unnamed/part_010 lines 486-492). -/
def despawnLoot (m : LootMap) (i : Nat) : LootMap × List StatApplication :=
  match lootLookup m i with
  | none => (m, [])
  | some _ => (lootErase m i, [])

/-- Step the `activeLoot` map by one event, collecting the stat
applications it performs. -/
def lootStep (m : LootMap) : LootOp → LootMap × List StatApplication
  | .spawn i l => (lootInsert m i l, [])
  | .touch i byPlayer => handleLootTouch m i byPlayer
  | .collect i p => collectLoot m i p
  | .despawn i => despawnLoot m i

/-- Run a sequence of loot events. -/
def lootRun (m : LootMap) : List LootOp → LootMap × List StatApplication
  | [] => (m, [])
  | op :: rest =>
      let step := lootStep m op
      let tail := lootRun step.1 rest
      (tail.1, step.2 ++ tail.2)

/-- Number of stat applications attributable to drop `i`. -/
def appsFor (i : Nat) (as : List StatApplication) : Nat :=
  (as.filter (fun a => a.lootId = i)).length

/-- Number of `spawn i` events in a trace (GUID freshness makes this at
most one per id in the source). -/
def spawnCount (i : Nat) (ops : List LootOp) : Nat :=
  (ops.filter (fun op => match op with | .spawn j _ => j = i | _ => false)).length

/-! ## Melee PvP gate (CombatService.performMeleeAttack) -/

/-- Host-side facts about one potential player target inside
`performMeleeAttack`: alive check, HumanoidRootPart presence, and the
`isInAttackArc` geometry test (computed by the engine over `Vector3`s). -/
structure TargetInfo where
  alive : Bool
  hasRootPart : Bool
  inArc : Bool
deriving DecidableEq, Repr

/-- The PvP section of CombatService.performMeleeAttack
(src/src/server/services/CombatService.ts lines 344-369): when
`pvpEnabled`, every other alive player with a root part inside the attack
arc receives `dealDamageToPlayer`; otherwise the section is skipped.
Returns the ids of the players damaged.  (The preceding enemy section
routes to `dealDamageToEnemy` and never damages players.) -/
def performMeleeAttackPlayerHits (pvpEnabled : Bool) (attacker : Nat)
    (others : List (Nat × TargetInfo)) : List Nat :=
  if pvpEnabled then
    ((others.filter (fun e =>
        decide (e.1 ≠ attacker) && e.2.alive && e.2.hasRootPart && e.2.inArc)).map
      Prod.fst)
  else []

/-! ## GameStateService (src/src/server/services/GameStateService.ts) -/

/-- The in-memory session state the claims are about: phase, the lobby
ready set, the CombatService and StatsService per-player maps, the PvP
flag, the LootService map and the set of live enemy ids.  Room bookkeeping
(`rooms`, `currentRoomIndex`), countdown threads and all scene-graph state
stay host-side. -/
structure Game where
  phase : GamePhase
  readyPlayers : List Nat
  combat : List (Nat × PlayerCombatState)
  stats : List (Nat × PlayerStats)
  pvpEnabled : Bool
  activeLoot : LootMap
  enemies : List Nat
deriving DecidableEq, Repr

/-- StatsService.getMaxHealth (src/src/server/services/StatsService.ts
lines 76-78): the player's stats entry or `BASE_STATS.maxHealth`. -/
def maxHealthOf : List (Nat × PlayerStats) → Nat → ℚ
  | [], _ => BASE_STATS.maxHealth
  | (q, st) :: rest, p => if q = p then st.maxHealth else maxHealthOf rest p

/-- CombatService.resetAllPlayers (lines 438-442): `resetPlayer` on every
tracked entry, with max health queried from StatsService. -/
def resetAllPlayers (stats : List (Nat × PlayerStats))
    (combat : List (Nat × PlayerCombatState)) : List (Nat × PlayerCombatState) :=
  combat.map (fun e => (e.1, resetPlayerCombat (maxHealthOf stats e.1) e.2))

/-- StatsService.resetAllPlayerStats (lines 180-184). -/
def resetAllPlayerStats (stats : List (Nat × PlayerStats)) : List (Nat × PlayerStats) :=
  stats.map (fun e => (e.1, resetPlayerStats e.2))

/-- GameStateService.enterLobby (src/src/server/services/GameStateService.ts
lines 197-215), in source order: clear the ready set, disable PvP, reset
combat states (reading the still-unreset StatsService max health), reset
stats to base, despawn all loot, despawn all enemies.  Teleports and room
re-initialization are host effects. -/
def enterLobby (g : Game) : Game :=
  let g1 := { g with readyPlayers := [], pvpEnabled := false }
  { g1 with
    combat := resetAllPlayers g1.stats g1.combat
    stats := resetAllPlayerStats g1.stats
    activeLoot := []
    enemies := [] }

/-- GameStateService.transitionTo (lines 149-193): set the phase, cancel
any countdown thread (host), and run the phase entry handler.  Countdown
scheduling, teleports and enemy spawning are host effects; the modelled
entry effects are enterLobby's resets, enterDungeon's combat reset, and
the PvP-flag writes of enterPvP/enterVictory. -/
def transitionTo (g : Game) (newPhase : GamePhase) : Game :=
  let g1 := { g with phase := newPhase }
  match newPhase with
  | .Lobby => enterLobby g1
  | .Dungeon => { g1 with combat := resetAllPlayers g1.stats g1.combat }
  | .PvP => { g1 with pvpEnabled := true }
  | .Victory => { g1 with pvpEnabled := false }
  | _ => g1

/-- CombatService.getAlivePlayers().size(). -/
def aliveCount (g : Game) : Nat :=
  (g.combat.filter (fun e => e.2.isAlive)).length

/-- Players.GetPlayers().size(); each connected player has a tracked
combat entry, so the count is the size of the combat map. -/
def totalPlayers (g : Game) : Nat := g.combat.length

/-- GameStateService.checkAllPlayersDead (lines 400-411): the phase the
`transitionTo` call targets, when any. -/
def checkAllPlayersDeadTarget (g : Game) : Option GamePhase :=
  if aliveCount g = 0 ∧ totalPlayers g > 0 then some .Lobby else none

/-- GameStateService.checkPvPVictory (lines 413-425). -/
def checkPvPVictoryTarget (g : Game) : Option GamePhase :=
  if aliveCount g ≤ 1 then some .Victory else none

/-- GameStateService.checkStartConditions (lines 427-437). -/
def checkStartConditionsTarget (g : Game) : Option GamePhase :=
  if g.phase = .Lobby then
    if g.readyPlayers.length ≥ MIN_PLAYERS_TO_START then some .Countdown else none
  else if g.phase = .Countdown then
    if g.readyPlayers.length < MIN_PLAYERS_TO_START then some .Lobby else none
  else none

/-- `Set.add` on the ready set. -/
def addReady (l : List Nat) (p : Nat) : List Nat :=
  if p ∈ l then l else p :: l

/-- Remove a player's entry from a per-player map (`Map.delete`). -/
def removeKey {α : Type} (m : List (Nat × α)) (p : Nat) : List (Nat × α) :=
  m.filter (fun e => e.1 ≠ p)

/-- The events that reach GameStateService's transition logic:
* `playerReady`/`playerUnready` — the remote events (`ratePassed` is the
  0.5 s toggle rate limiter; a failed check returns early);
* `playerLeft` — `Players.PlayerRemoving` (which also runs the
  CombatService/StatsService cleanups);
* `entityDied` — `CombatService.onEntityDied` into `handleEntityDeath`;
* `playerDied` — the public `onPlayerDied` into `handlePlayerDeath`;
* `countdownDone` — a `startCountdown` thread completing (`transitionTo`
  cancels the thread on every transition, so completion only fires in the
  phase whose entry started it);
* `bossDefeated` — the public `onBossDefeated`;
* `roomClearBossDelay` — the `task.delay(2, ...)` thunk scheduled by
  `handleEnemyKilled` when the last room clears, which re-checks
  `phase === "Dungeon"` before transitioning. -/
inductive GsEvent
  | playerReady (p : Nat) (ratePassed : Bool)
  | playerUnready (p : Nat) (ratePassed : Bool)
  | playerLeft (p : Nat)
  | entityDied (entityType : EntityTypeName)
  | playerDied
  | countdownDone
  | bossDefeated
  | roomClearBossDelay
deriving DecidableEq, Repr

/-- Dispatch one event: the pre-transition state updates of the handler
and the phase its `transitionTo` call targets (if it makes one).
Mirrors handlePlayerReady/handlePlayerUnready (lines 330-364),
handlePlayerLeft (lines 384-396), handleEntityDeath (lines 269-294),
handlePlayerDeath (lines 322-328), the countdown callbacks of
enterCountdown/enterPvPCountdown/enterVictory (lines 217-265),
onBossDefeated (lines 133-137) and the delayed boss transition of
handleEnemyKilled (lines 296-320; its room bookkeeping is host state and
does not itself transition). -/
def gsHandle (g : Game) : GsEvent → Game × Option GamePhase
  | .playerReady p ratePassed =>
      if g.phase ≠ .Lobby then (g, none)
      else if !ratePassed then (g, none)
      else
        let g1 := { g with readyPlayers := addReady g.readyPlayers p }
        (g1, checkStartConditionsTarget g1)
  | .playerUnready p ratePassed =>
      if g.phase ≠ .Lobby ∧ g.phase ≠ .Countdown then (g, none)
      else if !ratePassed then (g, none)
      else
        let g1 := { g with readyPlayers := g.readyPlayers.erase p }
        if g1.phase = .Countdown ∧ g1.readyPlayers.length < MIN_PLAYERS_TO_START then
          (g1, some .Lobby)
        else (g1, none)
  | .playerLeft p =>
      let g1 := { g with
        readyPlayers := g.readyPlayers.erase p
        combat := removeKey g.combat p
        stats := removeKey g.stats p }
      match g1.phase with
      | .Countdown => (g1, checkStartConditionsTarget g1)
      | .Lobby => (g1, checkStartConditionsTarget g1)
      | .PvP => (g1, checkPvPVictoryTarget g1)
      | .Dungeon => (g1, checkAllPlayersDeadTarget g1)
      | .Boss => (g1, checkAllPlayersDeadTarget g1)
      | _ => (g1, none)
  | .entityDied entityType =>
      match g.phase with
      | .Dungeon =>
          if entityType ≠ .Player then (g, none)
          else (g, checkAllPlayersDeadTarget g)
      | .Boss =>
          if entityType = .Boss then (g, some .PvPCountdown)
          else if entityType = .Player then (g, checkAllPlayersDeadTarget g)
          else (g, none)
      | .PvP =>
          if entityType = .Player then (g, checkPvPVictoryTarget g)
          else (g, none)
      | _ => (g, none)
  | .playerDied =>
      match g.phase with
      | .Dungeon => (g, checkAllPlayersDeadTarget g)
      | .Boss => (g, checkAllPlayersDeadTarget g)
      | .PvP => (g, checkPvPVictoryTarget g)
      | _ => (g, none)
  | .countdownDone =>
      match g.phase with
      | .Countdown => (g, some .Dungeon)
      | .PvPCountdown => (g, some .PvP)
      | .Victory => (g, some .Lobby)
      | _ => (g, none)
  | .bossDefeated =>
      if g.phase = .Boss then (g, some .PvPCountdown) else (g, none)
  | .roomClearBossDelay =>
      if g.phase = .Dungeon then (g, some .Boss) else (g, none)

/-- One full step of the service: dispatch the event and, when the handler
transitions, run `transitionTo`. -/
def gsStep (g : Game) (e : GsEvent) : Game :=
  match gsHandle g e with
  | (g1, some q) => transitionTo g1 q
  | (g1, none) => g1

/-! ## Helper lemmas -/

theorem getStat_setStat_same (st : PlayerStats) (stat : StatName) (v : ℚ) :
    getStat (setStat st stat v) stat = v := by
  cases stat <;> rfl

theorem getStat_setStat_other (st : PlayerStats) (stat other : StatName) (v : ℚ)
    (h : other ≠ stat) : getStat (setStat st stat v) other = getStat st other := by
  cases stat <;> cases other <;> first | rfl | exact absurd rfl h

/-! ## Concrete session states used by counterexamples and witnesses -/

/-- A one-player session in the Dungeon phase whose only player is dead. -/
def gDeadDungeon : Game :=
  { phase := .Dungeon
    readyPlayers := []
    combat := [(0, { health := 0, lastAttackTime := 0, isAlive := false, invulnerable := false })]
    stats := [(0, BASE_STATS)]
    pvpEnabled := false
    activeLoot := []
    enemies := [] }

/-- A session at the end of a round: player 0 collected maxHealth loot
during the run (maxHealth 150, health 150), some loot and an enemy are
still live, and a ready toggle is stale. -/
def gBoosted : Game :=
  { phase := .Boss
    readyPlayers := [3]
    combat := [(0, { health := 150, lastAttackTime := 2, isAlive := true, invulnerable := false })]
    stats := [(0, { damage := 12, attackSpeed := 1, moveSpeed := 16, maxHealth := 150 })]
    pvpEnabled := true
    activeLoot := [(7, { stat := .damage, amount := 2, rarity := .Common })]
    enemies := [4] }

/-! ## C2 — dealDamageToPlayer -/

/-- C2: for a player with initialized combat state, `dealDamageToPlayer`
sets health to `max 0 (health - amount)`; the death path (not-alive plus
the death events) runs exactly when the floored health is zero; all other
combat fields are untouched; and a dead or invulnerable target returns
entirely unchanged with no death event. -/
theorem dealDamageToPlayer_spec (s : PlayerCombatState) (a : ℚ) :
    (s.isAlive = true → s.invulnerable = false →
      ((dealDamageToPlayer s a).1.health = max 0 (s.health - a) ∧
       (dealDamageToPlayer s a).1.lastAttackTime = s.lastAttackTime ∧
       (dealDamageToPlayer s a).1.invulnerable = false ∧
       (max 0 (s.health - a) = 0 →
         (dealDamageToPlayer s a).1.isAlive = false ∧ (dealDamageToPlayer s a).2 = true) ∧
       (max 0 (s.health - a) ≠ 0 →
         (dealDamageToPlayer s a).1.isAlive = true ∧ (dealDamageToPlayer s a).2 = false))) ∧
    ((s.isAlive = false ∨ s.invulnerable = true) →
      dealDamageToPlayer s a = (s, false)) := by
  constructor
  · intro halive hinv
    have hcond : (!s.isAlive || s.invulnerable) = false := by rw [halive, hinv]; rfl
    rcases le_or_lt (max 0 (s.health - a)) 0 with h0 | h0
    · have hmax : max 0 (s.health - a) = 0 := le_antisymm h0 (le_max_left 0 _)
      have heq : dealDamageToPlayer s a =
          ({ s with health := max 0 (s.health - a), isAlive := false }, true) := by
        unfold dealDamageToPlayer
        rw [hcond]
        simp [h0]
      rw [heq]
      exact ⟨rfl, rfl, hinv, fun _ => ⟨rfl, rfl⟩, fun hne => absurd hmax hne⟩
    · have heq : dealDamageToPlayer s a =
          ({ s with health := max 0 (s.health - a) }, false) := by
        unfold dealDamageToPlayer
        rw [hcond]
        simp [not_le.mpr h0]
      rw [heq]
      exact ⟨rfl, rfl, hinv, fun h => absurd h (ne_of_gt h0), fun _ => ⟨halive, rfl⟩⟩
  · intro hdi
    have hcond : (!s.isAlive || s.invulnerable) = true := by
      rcases hdi with h | h <;> rw [h] <;> simp
    unfold dealDamageToPlayer
    rw [hcond]
    simp

/-- Witness for C2: a full-health player hit for 150 damage dies and the
death event fires. -/
theorem dealDamageToPlayer_spec_witness :
    (dealDamageToPlayer initialCombatState 150).1.isAlive = false ∧
    (dealDamageToPlayer initialCombatState 150).2 = true :=
  ((dealDamageToPlayer_spec initialCombatState 150).1 rfl rfl).2.2.2.1
    (by
      show max 0 (initialCombatState.health - 150) = 0
      rw [max_eq_left]
      norm_num [initialCombatState, PLAYER])

/-! ## C3 — attack cooldown -/

/-- A request inside the cooldown window is rejected with the state
unchanged, whatever the other guards say. -/
theorem handleAttackRequest_reject_of_lt (s : PlayerCombatState) (dv : Bool)
    (now sp : ℚ) (h : now - s.lastAttackTime < PLAYER_ATTACK.cooldown / sp) :
    handleAttackRequest s dv now sp = (s, false) := by
  unfold handleAttackRequest
  cases hA : s.isAlive <;> cases dv <;> simp [hA, h]

/-- What an accepted request implies: the player was alive, the direction
was valid, the cooldown had elapsed, and the new state is the old one with
`lastAttackTime` stamped to `now`. -/
theorem handleAttackRequest_accepted_facts (s : PlayerCombatState) (dv : Bool)
    (now sp : ℚ) (hacc : (handleAttackRequest s dv now sp).2 = true) :
    s.isAlive = true ∧ dv = true ∧
      ¬ now - s.lastAttackTime < PLAYER_ATTACK.cooldown / sp ∧
      (handleAttackRequest s dv now sp).1 = { s with lastAttackTime := now } := by
  unfold handleAttackRequest at hacc ⊢
  by_cases hlt : now - s.lastAttackTime < PLAYER_ATTACK.cooldown / sp <;>
    cases hA : s.isAlive <;> cases hd : dv <;> simp [hA, hd, hlt] at hacc ⊢

/-- C3: an accepted attack request stamps `lastAttackTime` with its time;
any request arriving within `PLAYER_ATTACK.cooldown / attackSpeed` of that
stamp is ignored with the combat state unchanged; and when two consecutive
requests are both accepted, they are at least the cooldown apart. -/
theorem handleAttackRequest_cooldown (s : PlayerCombatState) (dv dv2 : Bool)
    (t1 t2 sp1 sp2 : ℚ)
    (hacc : (handleAttackRequest s dv t1 sp1).2 = true) :
    (handleAttackRequest s dv t1 sp1).1.lastAttackTime = t1 ∧
    (t2 - t1 < PLAYER_ATTACK.cooldown / sp2 →
      handleAttackRequest (handleAttackRequest s dv t1 sp1).1 dv2 t2 sp2 =
        ((handleAttackRequest s dv t1 sp1).1, false)) ∧
    ((handleAttackRequest (handleAttackRequest s dv t1 sp1).1 dv2 t2 sp2).2 = true →
      PLAYER_ATTACK.cooldown / sp2 ≤ t2 - t1) := by
  obtain ⟨hA, hd, hcd, hfst⟩ := handleAttackRequest_accepted_facts s dv t1 sp1 hacc
  rw [hfst]
  refine ⟨rfl, ?_, ?_⟩
  · intro hlt
    exact handleAttackRequest_reject_of_lt _ dv2 t2 sp2 (by simpa using hlt)
  · intro hacc2
    obtain ⟨_, _, hcd2, _⟩ := handleAttackRequest_accepted_facts _ dv2 t2 sp2 hacc2
    simp only at hcd2
    exact not_lt.mp hcd2

/-- Witness for C3: with base attack speed, a request 0.2 s after an
accepted one is ignored and leaves the state unchanged. -/
theorem handleAttackRequest_cooldown_witness :
    handleAttackRequest (handleAttackRequest initialCombatState true 1 1).1 true (6/5) 1 =
      ((handleAttackRequest initialCombatState true 1 1).1, false) :=
  ((handleAttackRequest_cooldown initialCombatState true true 1 (6/5) 1 1
    (by
      unfold handleAttackRequest initialCombatState
      norm_num [PLAYER, PLAYER_ATTACK])).2.1
    (by norm_num [PLAYER_ATTACK]))

/-! ## C9 — health stays within [0, maxHealth] -/

/-- C9: for non-negative heal/damage amounts and non-negative maxima, each
health-touching CombatService operation keeps `0 ≤ health ≤ maxHealth`:
healing caps at the current max, damage floors at zero, `setPlayerHealth`
clamps any input into the range, and `onMaxHealthChanged` clamps current
health under the new maximum. -/
theorem combat_health_in_range (s : PlayerCombatState) (m m2 a hv : ℚ)
    (hlo : 0 ≤ s.health) (hhi : s.health ≤ m) (ha : 0 ≤ a) (hm2 : 0 ≤ m2) :
    (0 ≤ (healPlayer m s a).health ∧ (healPlayer m s a).health ≤ m) ∧
    (0 ≤ (dealDamageToPlayer s a).1.health ∧ (dealDamageToPlayer s a).1.health ≤ m) ∧
    (0 ≤ (setPlayerHealth m s hv).health ∧ (setPlayerHealth m s hv).health ≤ m) ∧
    (0 ≤ (onMaxHealthChanged s m2).health ∧ (onMaxHealthChanged s m2).health ≤ m2) := by
  have hm : 0 ≤ m := hlo.trans hhi
  refine ⟨?_, ?_, ?_, ?_⟩
  · unfold healPlayer
    split_ifs
    · exact ⟨le_min (by linarith) hm, min_le_right _ _⟩
    · exact ⟨hlo, hhi⟩
  · unfold dealDamageToPlayer
    by_cases hg : (!s.isAlive || s.invulnerable) = true
    · rw [if_pos hg]
      exact ⟨hlo, hhi⟩
    · rw [if_neg hg]
      by_cases h0 : max 0 (s.health - a) ≤ 0
      · rw [if_pos h0]
        exact ⟨le_max_left 0 _, max_le hm (by linarith)⟩
      · rw [if_neg h0]
        exact ⟨le_max_left 0 _, max_le hm (by linarith)⟩
  · unfold setPlayerHealth
    exact ⟨le_min (le_max_right hv 0) hm, min_le_right _ _⟩
  · unfold onMaxHealthChanged
    split_ifs with hgt
    · exact ⟨hm2, le_refl m2⟩
    · exact ⟨hlo, not_lt.mp hgt⟩

/-- Witness for C9: a half-health player under max 100 stays in range
through all four operations (heal 10, damage 10, set 200, new max 80). -/
theorem combat_health_in_range_witness :
    (0 ≤ (healPlayer 100 { health := 50, lastAttackTime := 0, isAlive := true, invulnerable := false } 10).health ∧
      (healPlayer 100 { health := 50, lastAttackTime := 0, isAlive := true, invulnerable := false } 10).health ≤ 100) ∧
    (0 ≤ (dealDamageToPlayer { health := 50, lastAttackTime := 0, isAlive := true, invulnerable := false } 10).1.health ∧
      (dealDamageToPlayer { health := 50, lastAttackTime := 0, isAlive := true, invulnerable := false } 10).1.health ≤ 100) ∧
    (0 ≤ (setPlayerHealth 100 { health := 50, lastAttackTime := 0, isAlive := true, invulnerable := false } 200).health ∧
      (setPlayerHealth 100 { health := 50, lastAttackTime := 0, isAlive := true, invulnerable := false } 200).health ≤ 100) ∧
    (0 ≤ (onMaxHealthChanged { health := 50, lastAttackTime := 0, isAlive := true, invulnerable := false } 80).health ∧
      (onMaxHealthChanged { health := 50, lastAttackTime := 0, isAlive := true, invulnerable := false } 80).health ≤ 80) :=
  combat_health_in_range _ 100 80 10 200 (by norm_num) (by norm_num) (by norm_num)
    (by norm_num)

/-! ## C5 — additive stat application -/

/-- Counterexample to C5 as stated: the amount 100000 is finite and
non-negative, yet `modifyStat` on base damage yields the cap 10000, not
`10 + 100000`. -/
theorem modifyStat_cap_counterexample :
    0 ≤ (100000 : ℚ) ∧
    getStat (modifyStat BASE_STATS .damage 100000) .damage ≠
      getStat BASE_STATS .damage + 100000 := by
  constructor
  · norm_num
  · have hcap : getStat (modifyStat BASE_STATS .damage 100000) .damage = 10000 := by
      unfold modifyStat
      rw [if_neg (by norm_num), getStat_setStat_same]
      have : getStat BASE_STATS .damage = 10 := rfl
      rw [this]
      show min ((10 : ℚ) + 100000) (MAX_STAT_VALUES .damage) = 10000
      rw [show MAX_STAT_VALUES .damage = (10000 : ℚ) from rfl,
        min_eq_right (by norm_num)]
    rw [hcap, show getStat BASE_STATS .damage = (10 : ℚ) from rfl]
    norm_num

/-- C5 amended: for valid (non-negative) amounts, `modifyStat` sets the
stat to `min (previous + amount) (MAX_STAT_VALUES stat)` — exactly
`previous + amount` whenever that does not exceed the per-stat cap —
leaves every other stat untouched, rejects negative amounts unchanged, and
the only other write path, `resetPlayerStats`, replaces the stats with the
base values. -/
theorem modifyStat_additive_capped (st : PlayerStats) (stat : StatName) (a : ℚ)
    (ha : 0 ≤ a) :
    getStat (modifyStat st stat a) stat =
      min (getStat st stat + a) (MAX_STAT_VALUES stat) ∧
    (getStat st stat + a ≤ MAX_STAT_VALUES stat →
      getStat (modifyStat st stat a) stat = getStat st stat + a) ∧
    (∀ other, other ≠ stat → getStat (modifyStat st stat a) other = getStat st other) ∧
    (∀ b : ℚ, b < 0 → modifyStat st stat b = st) ∧
    resetPlayerStats st = BASE_STATS := by
  have hnn : ¬ a < 0 := not_lt.mpr ha
  refine ⟨?_, ?_, ?_, ?_, rfl⟩
  · unfold modifyStat
    rw [if_neg hnn, getStat_setStat_same]
  · intro hle
    unfold modifyStat
    rw [if_neg hnn, getStat_setStat_same, min_eq_left hle]
  · intro other hne
    unfold modifyStat
    rw [if_neg hnn, getStat_setStat_other _ _ _ _ hne]
  · intro b hb
    unfold modifyStat
    rw [if_pos hb]

/-- Witness for C5 (amended): adding 5 damage to the base stats gives 15
and leaves attack speed at its base value. -/
theorem modifyStat_additive_capped_witness :
    getStat (modifyStat BASE_STATS .damage 5) .damage =
      getStat BASE_STATS .damage + 5 ∧
    getStat (modifyStat BASE_STATS .damage 5) .attackSpeed =
      getStat BASE_STATS .attackSpeed :=
  ⟨(modifyStat_additive_capped BASE_STATS .damage 5 (by norm_num)).2.1
      (by
        rw [show getStat BASE_STATS .damage = (10 : ℚ) from rfl,
          show MAX_STAT_VALUES .damage = (10000 : ℚ) from rfl]
        norm_num),
   (modifyStat_additive_capped BASE_STATS .damage 5 (by norm_num)).2.2.1 .attackSpeed
     (by decide)⟩

/-! ## C4 — loot drop roll -/

/-- The loop of `pickWeightedStat` only ever returns the stat of one of
the table's entries. -/
theorem pickWeightedStatGo_mem {drops : List LootTableEntry} {r : ℚ} {sn : StatName}
    (h : pickWeightedStatGo drops r = some sn) :
    sn ∈ drops.map LootTableEntry.stat := by
  induction drops generalizing r with
  | nil => simp [pickWeightedStatGo] at h
  | cons d rest ih =>
    rw [pickWeightedStatGo] at h
    split_ifs at h with hle
    · rw [Option.some_inj] at h
      simp [h]
    · simp only [List.map_cons, List.mem_cons]
      exact Or.inr (ih h)

/-- `pickWeightedStat` only ever returns the stat of one of the table's
entries (the fallback is the first entry). -/
theorem pickWeightedStat_mem {drops : List LootTableEntry} {r : ℚ} {sn : StatName}
    (h : pickWeightedStat drops r = some sn) :
    sn ∈ drops.map LootTableEntry.stat := by
  unfold pickWeightedStat at h
  cases hgo : pickWeightedStatGo drops r with
  | some s0 =>
    rw [hgo] at h
    rw [Option.some_inj] at h
    subst h
    exact pickWeightedStatGo_mem hgo
  | none =>
    rw [hgo] at h
    cases drops with
    | nil => simp at h
    | cons d rest =>
      have hd : d.stat = sn := by simpa using h
      simp [hd]

/-- On a nonempty table `pickWeightedStat` always returns a stat. -/
theorem pickWeightedStat_isSome {drops : List LootTableEntry} {r : ℚ}
    (h : drops ≠ []) : (pickWeightedStat drops r).isSome := by
  unfold pickWeightedStat
  cases hgo : pickWeightedStatGo drops r with
  | some s0 => rfl
  | none =>
    cases drops with
    | nil => exact absurd rfl h
    | cons d rest => rfl

/-- A stat that occurs in the table can be found back by `find?`. -/
theorem find_entry_of_mem {drops : List LootTableEntry} {sn : StatName}
    (h : sn ∈ drops.map LootTableEntry.stat) :
    ∃ e, drops.find? (fun d => d.stat = sn) = some e := by
  induction drops with
  | nil => simp at h
  | cons d rest ih =>
    by_cases hd : d.stat = sn
    · exact ⟨d, by simp [List.find?, hd]⟩
    · have hmem : sn ∈ rest.map LootTableEntry.stat := by
        simp only [List.map_cons, List.mem_cons] at h
        rcases h with h | h
        · exact absurd h.symm hd
        · exact h
      obtain ⟨e, he⟩ := ih hmem
      exact ⟨e, by simp [List.find?, hd, he]⟩

/-- `rollFromTable` spawns at most one drop. -/
theorem rollFromTable_length_le (t : EnemyLootTable) (rDrop rStat rRarity rAmt : ℚ) :
    (rollFromTable t rDrop rStat rRarity rAmt).length ≤ 1 := by
  unfold rollFromTable
  split_ifs with hdc
  · simp
  · split
    · simp
    · split <;> simp

/-- A failing drop roll spawns nothing. -/
theorem rollFromTable_gate (t : EnemyLootTable) (rDrop rStat rRarity rAmt : ℚ)
    (hdc : rDrop > t.dropChance) :
    rollFromTable t rDrop rStat rRarity rAmt = [] := by
  unfold rollFromTable
  rw [if_pos hdc]

/-- A passing drop roll on a nonempty table spawns exactly one drop. -/
theorem rollFromTable_hit (t : EnemyLootTable) (rDrop rStat rRarity rAmt : ℚ)
    (hdc : ¬ rDrop > t.dropChance) (hne : t.drops ≠ []) :
    (rollFromTable t rDrop rStat rRarity rAmt).length = 1 := by
  unfold rollFromTable
  rw [if_neg hdc]
  split
  · rename_i hP
    have hS := @pickWeightedStat_isSome t.drops
      (rStat * (t.drops.map LootTableEntry.weight).sum) hne
    rw [hP] at hS
    simp at hS
  · rename_i sn hP
    split
    · rename_i hF
      obtain ⟨e, he⟩ := find_entry_of_mem (pickWeightedStat_mem hP)
      exact absurd (he.symm.trans hF) (Option.some_ne_none e)
    · rename_i entry hF
      rfl

/-- Any spawned drop carries the stat of some entry of the table. -/
theorem rollFromTable_stat_mem (t : EnemyLootTable) (rDrop rStat rRarity rAmt : ℚ)
    (d : SpawnedLoot) (hd : d ∈ rollFromTable t rDrop rStat rRarity rAmt) :
    d.stat ∈ t.drops.map LootTableEntry.stat := by
  unfold rollFromTable at hd
  split_ifs at hd with hdc
  · simp at hd
  · split at hd
    · simp at hd
    · rename_i sn hP
      split at hd
      · simp at hd
      · rename_i entry hF
        rw [List.mem_singleton] at hd
        rw [hd]
        exact pickWeightedStat_mem hP

/-- C4: a non-Boss entity death triggers at most one drop: no loot when
the entity type has no loot table or the drop roll exceeds `dropChance`;
otherwise (for the nonempty tables of the config) exactly one drop, and
any spawned drop carries the stat of some entry of that type's table. -/
theorem rollAndSpawnLoot_spec (ty : EntityTypeName) (rDrop rStat rRarity rAmt : ℚ) :
    (rollAndSpawnLoot ty rDrop rStat rRarity rAmt).length ≤ 1 ∧
    (LOOT_TABLES ty = none → rollAndSpawnLoot ty rDrop rStat rRarity rAmt = []) ∧
    (∀ t, LOOT_TABLES ty = some t →
      (rDrop > t.dropChance → rollAndSpawnLoot ty rDrop rStat rRarity rAmt = []) ∧
      (¬ rDrop > t.dropChance → t.drops ≠ [] →
        (rollAndSpawnLoot ty rDrop rStat rRarity rAmt).length = 1) ∧
      (∀ d ∈ rollAndSpawnLoot ty rDrop rStat rRarity rAmt,
        d.stat ∈ t.drops.map LootTableEntry.stat)) := by
  cases hT : LOOT_TABLES ty with
  | none =>
    refine ⟨?_, fun _ => ?_, fun t ht => by simp at ht⟩ <;>
      simp [rollAndSpawnLoot, hT]
  | some t =>
    have hroll : rollAndSpawnLoot ty rDrop rStat rRarity rAmt =
        rollFromTable t rDrop rStat rRarity rAmt := by
      simp [rollAndSpawnLoot, hT]
    refine ⟨?_, fun h => by simp at h, fun t2 ht2 => ?_⟩
    · rw [hroll]
      exact rollFromTable_length_le t rDrop rStat rRarity rAmt
    · have ht : t2 = t := (Option.some_inj.mp ht2).symm
      subst ht
      exact ⟨fun hdc => hroll.trans (rollFromTable_gate _ _ _ _ _ hdc),
        fun hdc hne => by rw [hroll]; exact rollFromTable_hit _ _ _ _ _ hdc hne,
        fun d hd => rollFromTable_stat_mem _ _ _ _ _ d (hroll ▸ hd)⟩

/-- Witness for C4: a Goblin kill with a passing drop roll spawns exactly
one drop. -/
theorem rollAndSpawnLoot_spec_witness :
    (rollAndSpawnLoot .Goblin 0 0 0 0).length = 1 :=
  ((rollAndSpawnLoot_spec .Goblin 0 0 0 0).2.2 _ rfl).2.1
    (by
      show ¬ (0 : ℚ) > (2/5 : ℚ)
      norm_num)
    (by simp)

/-! ## C6 — PvP toggle gates player damage -/

/-- C6: the PvP section of `performMeleeAttack` damages no player while
`pvpEnabled` is false, never damages the attacker, and the toggle is
written by exactly the phase entries the claim names: true on entering
PvP, false on entering Lobby or Victory. -/
theorem pvp_toggle_gate (attacker : Nat) (others : List (Nat × TargetInfo))
    (pvp : Bool) (g : Game) :
    performMeleeAttackPlayerHits false attacker others = [] ∧
    attacker ∉ performMeleeAttackPlayerHits pvp attacker others ∧
    (transitionTo g .PvP).pvpEnabled = true ∧
    (transitionTo g .Lobby).pvpEnabled = false ∧
    (transitionTo g .Victory).pvpEnabled = false := by
  refine ⟨rfl, ?_, rfl, rfl, rfl⟩
  intro hmem
  unfold performMeleeAttackPlayerHits at hmem
  cases pvp with
  | false => simp at hmem
  | true =>
    rw [if_pos rfl] at hmem
    rw [List.mem_map] at hmem
    obtain ⟨e, he, hfst⟩ := hmem
    rw [List.mem_filter] at he
    have := he.2
    simp only [Bool.and_eq_true, decide_eq_true_eq] at this
    exact this.1.1.1 (by rw [hfst])

/-- Witness for C6: with PvP off a perfectly placed target is not hit, and
with PvP on an attacker never appears among their own victims. -/
theorem pvp_toggle_gate_witness :
    performMeleeAttackPlayerHits false 0
      [(1, { alive := true, hasRootPart := true, inArc := true })] = [] ∧
    (0 : Nat) ∉ performMeleeAttackPlayerHits true 0
      [(1, { alive := true, hasRootPart := true, inArc := true })] :=
  ⟨(pvp_toggle_gate 0 [(1, { alive := true, hasRootPart := true, inArc := true })]
      true gDeadDungeon).1,
   (pvp_toggle_gate 0 [(1, { alive := true, hasRootPart := true, inArc := true })]
      true gDeadDungeon).2.1⟩

/-! ## C1 — phase transitions -/

theorem checkAllPlayersDeadTarget_eq {g : Game} {q : GamePhase}
    (h : checkAllPlayersDeadTarget g = some q) : q = GamePhase.Lobby := by
  unfold checkAllPlayersDeadTarget at h
  split_ifs at h with hc
  first
    | exact h.symm
    | exact (Option.some_inj.mp h).symm

theorem checkPvPVictoryTarget_eq {g : Game} {q : GamePhase}
    (h : checkPvPVictoryTarget g = some q) : q = GamePhase.Victory := by
  unfold checkPvPVictoryTarget at h
  split_ifs at h with hc
  first
    | exact h.symm
    | exact (Option.some_inj.mp h).symm

theorem checkStartConditionsTarget_eq {g : Game} {q : GamePhase}
    (h : checkStartConditionsTarget g = some q) :
    (g.phase = GamePhase.Lobby ∧ q = GamePhase.Countdown) ∨
    (g.phase = GamePhase.Countdown ∧ q = GamePhase.Lobby) := by
  unfold checkStartConditionsTarget at h
  split_ifs at h with h1 h2 h3 h4
  · exact Or.inl ⟨h1, by first | exact h.symm | exact (Option.some_inj.mp h).symm⟩
  · exact Or.inr ⟨h3, by first | exact h.symm | exact (Option.some_inj.mp h).symm⟩

/-- Counterexample to C1 as stated: in the Dungeon phase, the death of the
last alive player makes `checkAllPlayersDead` transition straight back to
Lobby, which is not the Dungeon phase's successor (Boss) in the cycle. -/
theorem phase_cycle_counterexample :
    ¬ (∀ (g : Game) (e : GsEvent) (q : GamePhase),
        (gsHandle g e).2 = some q → q = cycleNext g.phase) := by
  intro hall
  have h := hall gDeadDungeon (.entityDied .Player) .Lobby (by
    simp [gsHandle, gDeadDungeon, checkAllPlayersDeadTarget, aliveCount, totalPlayers])
  simp [gDeadDungeon, cycleNext] at h

/-- C1 amended: every phase transition performed by GameStateService either
advances to the immediate successor in the cycle
Lobby → Countdown → Dungeon → Boss → PvPCountdown → PvP → Victory → Lobby,
or aborts the round back to Lobby (all players dead in Dungeon/Boss, or the
countdown losing its required ready players). -/
theorem gsHandle_target_cycle_or_lobby (g : Game) (e : GsEvent) (q : GamePhase)
    (h : (gsHandle g e).2 = some q) :
    q = cycleNext g.phase ∨ q = GamePhase.Lobby := by
  cases e with
  | playerReady p rate =>
    simp only [gsHandle] at h
    split_ifs at h with h1 h2
    rcases checkStartConditionsTarget_eq h with ⟨hp2, hq⟩ | ⟨hp2, hq⟩
    · refine Or.inl (hq.trans ?_)
      rw [show g.phase = GamePhase.Lobby from hp2]
      rfl
    · exact Or.inr hq
  | playerUnready p rate =>
    simp only [gsHandle] at h
    split_ifs at h with h1 h2 h3
    refine Or.inr ?_
    first
      | exact h.symm
      | exact (Option.some_inj.mp h).symm
  | playerLeft p =>
    simp only [gsHandle] at h
    cases hp : g.phase <;> simp only [hp] at h
    · rcases checkStartConditionsTarget_eq h with ⟨_, hq⟩ | ⟨hp2, _⟩
      · left
        simp [hq, cycleNext]
      · simp at hp2
    · rcases checkStartConditionsTarget_eq h with ⟨hp2, _⟩ | ⟨_, hq⟩
      · simp at hp2
      · exact Or.inr hq
    · exact Or.inr (checkAllPlayersDeadTarget_eq h)
    · exact Or.inr (checkAllPlayersDeadTarget_eq h)
    · simp at h
    · exact Or.inl (checkPvPVictoryTarget_eq h)
    · simp at h
  | entityDied ty =>
    simp only [gsHandle] at h
    cases hp : g.phase <;> simp only [hp] at h
    · simp at h
    · simp at h
    · split_ifs at h with h1
      all_goals first
        | exact Or.inr (checkAllPlayersDeadTarget_eq h)
        | simp at h
    · split_ifs at h with h1 h2
      all_goals first
        | exact Or.inr (checkAllPlayersDeadTarget_eq h)
        | exact Or.inl (by first | exact h.symm | exact (Option.some_inj.mp h).symm)
        | simp at h
    · simp at h
    · split_ifs at h with h1
      all_goals first
        | exact Or.inl (checkPvPVictoryTarget_eq h)
        | simp at h
    · simp at h
  | playerDied =>
    simp only [gsHandle] at h
    cases hp : g.phase <;> simp only [hp] at h
    · simp at h
    · simp at h
    · exact Or.inr (checkAllPlayersDeadTarget_eq h)
    · exact Or.inr (checkAllPlayersDeadTarget_eq h)
    · simp at h
    · exact Or.inl (checkPvPVictoryTarget_eq h)
    · simp at h
  | countdownDone =>
    simp only [gsHandle] at h
    cases hp : g.phase <;> simp only [hp] at h
    all_goals first
      | exact Or.inl (by first | exact h.symm | exact (Option.some_inj.mp h).symm)
      | exact Or.inr (by first | exact h.symm | exact (Option.some_inj.mp h).symm)
      | simp at h
  | bossDefeated =>
    simp only [gsHandle] at h
    split_ifs at h with h1
    all_goals first
      | (refine Or.inl ?_
         rw [h1]
         first
           | exact h.symm
           | exact (Option.some_inj.mp h).symm)
      | simp at h
  | roomClearBossDelay =>
    simp only [gsHandle] at h
    split_ifs at h with h1
    all_goals first
      | (refine Or.inl ?_
         rw [h1]
         first
           | exact h.symm
           | exact (Option.some_inj.mp h).symm)
      | simp at h

/-- Witness for C1 (amended): the Dungeon → Lobby abort is covered by the
right disjunct. -/
theorem gsHandle_target_cycle_or_lobby_witness :
    GamePhase.Lobby = cycleNext gDeadDungeon.phase ∨
      GamePhase.Lobby = GamePhase.Lobby :=
  gsHandle_target_cycle_or_lobby gDeadDungeon (.entityDied .Player) .Lobby (by
    simp [gsHandle, gDeadDungeon, checkAllPlayersDeadTarget, aliveCount, totalPlayers])

/-! ## C7 — the Lobby reset -/

/-- Counterexample to C7 as stated: `enterLobby` resets combat state
(setting health to the StatsService max) before it resets the stats to
base, so a player who gained maxHealth during the round (here: 150) comes
out of the reset with health 150 against a freshly reset maximum of 100 —
not at full (max) health. -/
theorem enterLobby_full_health_counterexample :
    ¬ (∀ e ∈ (transitionTo gBoosted .Lobby).combat,
        e.2.health = maxHealthOf (transitionTo gBoosted .Lobby).stats e.1) := by
  intro hall
  have hmem : ((0 : Nat),
      ({ health := 150, lastAttackTime := 0, isAlive := true, invulnerable := false } :
        PlayerCombatState)) ∈ (transitionTo gBoosted .Lobby).combat := by
    simp [transitionTo, enterLobby, gBoosted, resetAllPlayers, resetPlayerCombat,
      maxHealthOf]
  have h := hall _ hmem
  simp [transitionTo, enterLobby, gBoosted, resetAllPlayerStats, resetPlayerStats,
    maxHealthOf, BASE_STATS] at h

/-- C7 amended: on the transition into Lobby the round state is reset: the
ready set is cleared, PvP is disabled, all loot and enemies are despawned,
every tracked player's stats return to the base values, and every tracked
player's combat state returns to alive with cleared cooldown and
invulnerability and with health set to the player's pre-transition
maximum health (which equals the base maximum only when maxHealth was not
modified during the round, because the combat reset runs before the stats
reset). -/
theorem transitionTo_lobby_resets (g : Game) :
    (transitionTo g .Lobby).readyPlayers = [] ∧
    (transitionTo g .Lobby).pvpEnabled = false ∧
    (transitionTo g .Lobby).activeLoot = [] ∧
    (transitionTo g .Lobby).enemies = [] ∧
    (∀ e ∈ (transitionTo g .Lobby).stats, e.2 = BASE_STATS) ∧
    (∀ e ∈ (transitionTo g .Lobby).combat,
      e.2.isAlive = true ∧ e.2.invulnerable = false ∧ e.2.lastAttackTime = 0 ∧
      e.2.health = maxHealthOf g.stats e.1) := by
  refine ⟨rfl, rfl, rfl, rfl, ?_, ?_⟩
  · intro e he
    simp only [transitionTo, enterLobby, resetAllPlayerStats, List.mem_map] at he
    obtain ⟨e0, _, he0⟩ := he
    rw [← he0]
    rfl
  · intro e he
    simp only [transitionTo, enterLobby, resetAllPlayers, List.mem_map] at he
    obtain ⟨e0, _, he0⟩ := he
    rw [← he0]
    exact ⟨rfl, rfl, rfl, rfl⟩

/-- Witness for C7 (amended): the boosted player of `gBoosted` comes out
of the Lobby reset alive, vulnerable, with cleared cooldown, at the
pre-transition maximum. -/
theorem transitionTo_lobby_resets_witness :
    ({ health := 150, lastAttackTime := 0, isAlive := true, invulnerable := false } :
        PlayerCombatState).isAlive = true ∧
    ({ health := 150, lastAttackTime := 0, isAlive := true, invulnerable := false } :
        PlayerCombatState).invulnerable = false ∧
    ({ health := 150, lastAttackTime := 0, isAlive := true, invulnerable := false } :
        PlayerCombatState).lastAttackTime = 0 ∧
    ({ health := 150, lastAttackTime := 0, isAlive := true, invulnerable := false } :
        PlayerCombatState).health = maxHealthOf gBoosted.stats 0 :=
  (transitionTo_lobby_resets gBoosted).2.2.2.2.2
    (0, { health := 150, lastAttackTime := 0, isAlive := true, invulnerable := false })
    (by
      simp [transitionTo, enterLobby, gBoosted, resetAllPlayers, resetPlayerCombat,
        maxHealthOf])

/-! ## C10 — each loot drop applies its stat at most once -/

theorem appsFor_append (i : Nat) (a b : List StatApplication) :
    appsFor i (a ++ b) = appsFor i a + appsFor i b := by
  unfold appsFor
  rw [List.filter_append, List.length_append]

theorem lootLookup_cons_ne {e : Nat × ActiveLoot} {rest : LootMap} {i : Nat}
    (h : e.1 ≠ i) : lootLookup (e :: rest) i = lootLookup rest i := by
  obtain ⟨j, l⟩ := e
  simp only [lootLookup]
  rw [if_neg h]

theorem lootLookup_erase (m : LootMap) (j i : Nat) :
    lootLookup (lootErase m j) i = if j = i then none else lootLookup m i := by
  induction m with
  | nil => by_cases hji : j = i <;> simp [lootErase, lootLookup, hji]
  | cons e rest ih =>
    by_cases hej : e.1 = j
    · have h1 : lootErase (e :: rest) j = lootErase rest j := by
        unfold lootErase
        rw [List.filter_cons, if_neg (by simp [hej])]
      rw [h1, ih]
      by_cases hji : j = i
      · rw [if_pos hji, if_pos hji]
      · rw [if_neg hji, if_neg hji,
          lootLookup_cons_ne (by rw [hej]; exact hji)]
    · have h1 : lootErase (e :: rest) j = e :: lootErase rest j := by
        unfold lootErase
        rw [List.filter_cons, if_pos (by simp [hej])]
      rw [h1]
      by_cases hei : e.1 = i
      · have hji : ¬ j = i := by
          intro hji
          exact hej (by rw [hei, hji])
        rw [if_neg hji]
        unfold lootLookup
        rw [if_pos hei, if_pos hei]
      · rw [lootLookup_cons_ne hei, lootLookup_cons_ne hei, ih]

/-- Whether drop `i` sits in the map, as a 0/1 count. -/
def lootPresence (m : LootMap) (i : Nat) : Nat :=
  if (lootLookup m i).isSome then 1 else 0

theorem lootPresence_of_some {m : LootMap} {i : Nat} {l : ActiveLoot}
    (h : lootLookup m i = some l) : lootPresence m i = 1 := by
  unfold lootPresence
  simp [h]

theorem lootPresence_of_none {m : LootMap} {i : Nat}
    (h : lootLookup m i = none) : lootPresence m i = 0 := by
  unfold lootPresence
  simp [h]

theorem lootPresence_le_one (m : LootMap) (i : Nat) : lootPresence m i ≤ 1 := by
  unfold lootPresence
  split_ifs <;> omega

theorem lootPresence_erase_le (m : LootMap) (j i : Nat) :
    lootPresence (lootErase m j) i ≤ lootPresence m i := by
  unfold lootPresence
  rw [lootLookup_erase]
  by_cases hji : j = i
  · simp [hji]
  · simp [hji]

/-- One loot event keeps the per-drop budget: the applications it emits for
drop `i` plus the drop's continued presence never exceed its prior
presence plus any `spawn i` in the event. -/
theorem lootStep_bound (m : LootMap) (op : LootOp) (i : Nat) :
    appsFor i (lootStep m op).2 + lootPresence (lootStep m op).1 i ≤
      lootPresence m i + spawnCount i [op] := by
  cases op with
  | spawn j l =>
    simp only [lootStep, lootInsert]
    have happ : appsFor i ([] : List StatApplication) = 0 := rfl
    rw [happ]
    by_cases hji : j = i
    · have hl : lootPresence ((j, l) :: lootErase m j) i = 1 :=
        @lootPresence_of_some ((j, l) :: lootErase m j) i l
          (by simp only [lootLookup]; rw [if_pos hji])
      have hsc : spawnCount i [LootOp.spawn j l] = 1 := by
        simp [spawnCount, List.filter, hji]
      rw [hl, hsc]
      omega
    · have hl : lootPresence ((j, l) :: lootErase m j) i = lootPresence m i := by
        unfold lootPresence
        rw [lootLookup_cons_ne hji, lootLookup_erase, if_neg hji]
      rw [hl]
      omega
  | collect j p =>
    simp only [lootStep]
    cases hl : lootLookup m j with
    | none =>
      simp only [collectLoot, hl]
      have happ : appsFor i ([] : List StatApplication) = 0 := rfl
      rw [happ]
      omega
    | some l =>
      simp only [collectLoot, hl]
      by_cases hji : j = i
      · have happ : appsFor i
            [{ lootId := j, player := p, stat := l.stat, amount := l.amount }] = 1 := by
          simp [appsFor, List.filter, hji]
        have hpre : lootPresence m i = 1 := lootPresence_of_some (hji ▸ hl)
        have hafter : lootPresence (lootErase m j) i = 0 := by
          unfold lootPresence
          rw [lootLookup_erase, if_pos hji]
          rfl
        rw [happ, hpre, hafter]
        omega
      · have happ : appsFor i
            [{ lootId := j, player := p, stat := l.stat, amount := l.amount }] = 0 := by
          simp [appsFor, List.filter, hji]
        have hafter : lootPresence (lootErase m j) i = lootPresence m i := by
          unfold lootPresence
          rw [lootLookup_erase, if_neg hji]
        rw [happ, hafter]
        omega
  | touch j byPlayer =>
    simp only [lootStep]
    cases hl : lootLookup m j with
    | none =>
      simp only [handleLootTouch, hl]
      have happ : appsFor i ([] : List StatApplication) = 0 := rfl
      rw [happ]
      omega
    | some l =>
      cases byPlayer with
      | none =>
        simp only [handleLootTouch, hl]
        have happ : appsFor i ([] : List StatApplication) = 0 := rfl
        rw [happ]
        omega
      | some p =>
        simp only [handleLootTouch, hl, collectLoot]
        by_cases hji : j = i
        · have happ : appsFor i
              [{ lootId := j, player := p, stat := l.stat, amount := l.amount }] = 1 := by
            simp [appsFor, List.filter, hji]
          have hpre : lootPresence m i = 1 := lootPresence_of_some (hji ▸ hl)
          have hafter : lootPresence (lootErase m j) i = 0 := by
            unfold lootPresence
            rw [lootLookup_erase, if_pos hji]
            rfl
          rw [happ, hpre, hafter]
          omega
        · have happ : appsFor i
              [{ lootId := j, player := p, stat := l.stat, amount := l.amount }] = 0 := by
            simp [appsFor, List.filter, hji]
          have hafter : lootPresence (lootErase m j) i = lootPresence m i := by
            unfold lootPresence
            rw [lootLookup_erase, if_neg hji]
          rw [happ, hafter]
          omega
  | despawn j =>
    simp only [lootStep]
    cases hl : lootLookup m j with
    | none =>
      simp only [despawnLoot, hl]
      have happ : appsFor i ([] : List StatApplication) = 0 := rfl
      rw [happ]
      omega
    | some l =>
      simp only [despawnLoot, hl]
      have happ : appsFor i ([] : List StatApplication) = 0 := rfl
      have hle := lootPresence_erase_le m j i
      rw [happ]
      omega

theorem spawnCount_cons (i : Nat) (op : LootOp) (rest : List LootOp) :
    spawnCount i (op :: rest) = spawnCount i [op] + spawnCount i rest := by
  unfold spawnCount
  rw [List.filter_cons, List.filter_cons]
  split_ifs with hp
  · simp [Nat.add_comm]
  · simp

/-- Over a whole event trace, applications for drop `i` plus its continued
presence stay under its initial presence plus the number of `spawn i`
events. -/
theorem lootRun_bound (i : Nat) (ops : List LootOp) : ∀ m : LootMap,
    appsFor i (lootRun m ops).2 + lootPresence (lootRun m ops).1 i ≤
      lootPresence m i + spawnCount i ops := by
  induction ops with
  | nil =>
    intro m
    simp [lootRun, appsFor, spawnCount]
  | cons op rest ih =>
    intro m
    have hstep := lootStep_bound m op i
    have hrest := ih (lootStep m op).1
    simp only [lootRun]
    rw [appsFor_append, spawnCount_cons]
    omega

/-- C10: each spawned loot drop modifies stats at most once.  Starting
from a map without drop `i`, any event trace that spawns `i` at most once
(GUIDs are fresh) performs at most one stat application for `i` — a second
touch, a touch after despawn, or a despawn after collection never applies
the stat again — and collecting always leaves the drop absent from the
active-loot map. -/
theorem loot_applied_at_most_once (m : LootMap) (i : Nat) (ops : List LootOp)
    (h0 : lootLookup m i = none) (h1 : spawnCount i ops ≤ 1) :
    appsFor i (lootRun m ops).2 ≤ 1 ∧
    (∀ (m2 : LootMap) (p : Nat), lootLookup (collectLoot m2 i p).1 i = none) := by
  constructor
  · have hb := lootRun_bound i ops m
    rw [lootPresence_of_none h0] at hb
    omega
  · intro m2 p
    cases hl : lootLookup m2 i with
    | none =>
      simp only [collectLoot, hl]
    | some l =>
      simp only [collectLoot, hl]
      simp [lootLookup_erase]

/-- Witness for C10: a drop that is spawned once, touched twice and then
despawned applies its stat at most once. -/
theorem loot_applied_at_most_once_witness :
    appsFor 0 (lootRun []
      [LootOp.spawn 0 { stat := .damage, amount := 2, rarity := .Common },
       LootOp.touch 0 (some 5), LootOp.touch 0 (some 5), LootOp.despawn 0]).2 ≤ 1 :=
  (loot_applied_at_most_once [] 0
    [LootOp.spawn 0 { stat := .damage, amount := 2, rarity := .Common },
     LootOp.touch 0 (some 5), LootOp.touch 0 (some 5), LootOp.despawn 0]
    rfl (by simp [spawnCount, List.filter])).1

end LootGoblin
